import Mathlib

/-!
Verification of the Design-Patterns repository dispatch core.

Two components are embedded from the TypeScript source:

KeyedRegistry (src/registry-pattern.ts): a `Registry` class holding
`handlers : Record<string, Animal>`; its constructor does
`animals.forEach(a => this.handlers[a.key] = a)` and `speak(key)` looks the
key up, logging "handler not found!" when absent and `await handler.speak()`
when present. A handler (`Animal`) is identified by its `key` and its
`speak()` produces console output and may raise.

BroadcastRegistry (src/unnamed/part_003, `NotifierSubject`): holds
`observers : Observer[]`; `subscribe` pushes when `!includes`, `unsubscribe`
reassigns `this.observers = this.observers.filter(o => o !== observer)`
(a fresh array), and `notify` runs `for (const observer of this.observers)`
calling `observer.update(event, data)`.

The JavaScript aliasing semantics of `notify` matter: the `for..of` loop holds
the array object that `this.observers` referenced at loop entry. A
`subscribe` during the loop pushes onto that very array object (the loop then
visits the new element), while an `unsubscribe` rebinds `this.observers` to a
fresh filtered array, leaving the iterated array untouched. The broadcast
model below tracks the iterated array contents, the contents of the array
currently bound to `this.observers`, and whether the two are still the same
object.

Machine integers play no role; observer identities are modelled as `Nat` and
keys as `String`. Handler invocation is modelled by its observable behaviour:
the console lines it emits plus an optional raised failure, propagated as an
`Option String`.
-/

/-- Handler entity of the KeyedRegistry (interface `Animal`): a unique string
key plus the observable behaviour of its `speak()` operation, namely the
console lines it emits and the failure it raises, if any (`none` = returns
normally). The source `speak()` takes no arguments. -/
structure Animal where
  key : String
  speak : List String × Option String
deriving DecidableEq, Repr

/-- Handler `Dog` of src/registry-pattern.ts: key "dog", logs "gau gau". -/
def Dog : Animal := { key := "dog", speak := (["gau gau"], none) }

/-- Handler `Cat` of src/registry-pattern.ts: key "cat", logs "meo meo". -/
def Cat : Animal := { key := "cat", speak := (["meo meo"], none) }

/-- The `handlers : Record<string, Animal>` object, as an insertion-ordered
association list with at most one entry per key (the reachable states of a
JavaScript object keyed by strings). -/
abbrev RegMap := List (String × Animal)

/-- JavaScript object assignment `m[k] = v`: when `k` is already a key its
value is replaced in place (the entry keeps its position), otherwise the new
entry is appended at the end. -/
def recordSet (m : RegMap) (k : String) (v : Animal) : RegMap :=
  match m with
  | [] => [(k, v)]
  | p :: rest => if p.1 = k then (k, v) :: rest else p :: recordSet rest k v

/-- JavaScript object lookup `m[k]`, as an `Option`: `none` models the falsy
`undefined` that makes `if (!handler)` fire in `speak`. -/
def recordGet (m : RegMap) (k : String) : Option Animal :=
  match m with
  | [] => none
  | p :: rest => if p.1 = k then some p.2 else recordGet rest k

/-- The `Registry` constructor: `animals.forEach(a => (this.handlers[a.key] = a))`
starting from the empty object. -/
def registryInit (animals : List Animal) : RegMap :=
  animals.foldl (fun m a => recordSet m a.key a) []

/-- `Registry.speak(key)`: look the key up; when absent log
"handler not found!" and return normally; when present run the handler and
propagate its output and failure unchanged (the source has no try/catch). -/
def Registry.speak (m : RegMap) (k : String) : List String × Option String :=
  match recordGet m k with
  | none => (["handler not found!"], none)
  | some h => h.speak

/-- Modelled from the spec: the `Registry` class in src/registry-pattern.ts
has no `unregister` operation (only the constructor and `speak`); spec §4.1
defines `unregister(key)` as removing the mapping if present and a no-op, not
an error, if absent — the JavaScript idiom `delete this.handlers[key]`, which
removes that key and leaves every other entry in place. -/
def unregister (m : RegMap) (k : String) : RegMap :=
  m.filter (fun p => p.1 ≠ k)

/-- Subject state of the Observer component (`NotifierSubject`): the contents
of the `observers : Observer[]` array. Observer identities are `Nat`. -/
structure NotifierSubject where
  observers : List Nat
deriving DecidableEq, Repr

/-- `subscribe(observer)`: push unless an identical observer is already
present (`includes` is identity membership). -/
def subscribe (s : NotifierSubject) (o : Nat) : NotifierSubject :=
  if o ∈ s.observers then s else { observers := s.observers ++ [o] }

/-- `unsubscribe(observer)`: rebind `this.observers` to
`this.observers.filter(o => o !== observer)` — a fresh array without any
occurrence of the observer. -/
def unsubscribe (s : NotifierSubject) (o : Nat) : NotifierSubject :=
  { observers := s.observers.filter (fun x => x ≠ o) }

/-- An operation a listener may perform on the subject from inside its
`update` callback: `sub o` calls `subscribe(o)`, `unsub o` calls
`unsubscribe(o)`. The concrete `User.update` of the source performs none
(it only logs). -/
inductive Op where
  | sub (o : Nat)
  | unsub (o : Nat)
deriving DecidableEq, Repr

/-- Whether an operation is an `unsubscribe` call. -/
def Op.isUnsub : Op → Bool
  | .sub _ => false
  | .unsub _ => true

/-- State during a `notify` loop: `iterArr` is the contents of the array
object captured by the `for..of` iterator at loop entry, `cur` is the
contents of the array currently bound to `this.observers`, and `aliased`
records whether `this.observers` still names the iterated array object. -/
structure BCState where
  iterArr : List Nat
  cur : List Nat
  aliased : Bool
deriving DecidableEq, Repr

/-- Effect of one subject operation issued during a broadcast. `subscribe`
checks membership against `this.observers` (`cur`) and pushes in place: when
the two names are still aliased the iterated array grows too. `unsubscribe`
always rebinds `this.observers` to a fresh filtered array, so the iterated
array is never touched and the alias is broken. -/
def applyOp (st : BCState) (op : Op) : BCState :=
  match op with
  | .sub o =>
      if o ∈ st.cur then st
      else
        { iterArr := if st.aliased then st.iterArr ++ [o] else st.iterArr
          cur := st.cur ++ [o]
          aliased := st.aliased }
  | .unsub o =>
      { iterArr := st.iterArr
        cur := st.cur.filter (fun x => x ≠ o)
        aliased := false }

/-- The `for..of` loop of `notify`, at iterator position `pos` with the
listener calls made so far in `log`. Each step visits the listener at `pos`
of the iterated array, runs the subject operations that the listener performs
inside its `update` (given by `env`), and advances. The JavaScript array
iterator re-reads the array length each step, so elements pushed during the
loop are visited. `fuel` bounds the number of steps (a listener that keeps
subscribing fresh listeners makes the real loop diverge); `none` means the
fuel ran out. -/
def notifyLoop (env : Nat → List Op) : Nat → BCState → Nat → List Nat →
    Option (List Nat × List Nat)
  | 0, _, _, _ => none
  | fuel + 1, st, pos, log =>
      if h : pos < st.iterArr.length then
        notifyLoop env fuel
          ((env (st.iterArr.get ⟨pos, h⟩)).foldl applyOp st) (pos + 1)
          (log ++ [st.iterArr.get ⟨pos, h⟩])
      else
        some (log, st.cur)

/-- `notify(event, data)`: iterate the array bound to `this.observers` at call
entry (initially aliased), calling `update(event, data)` on each visited
listener in order; delivery is sequential (the call to the next listener
starts only after the previous `update` returned, which the left-to-right
recursion models). Returns the list of `update` invocations — each visited
listener paired with the event name and payload content it received — and the
subject state after the loop. -/
def notifyM (env : Nat → List Op) (fuel : Nat) (e c : String)
    (s : NotifierSubject) :
    Option (List (Nat × String × String) × NotifierSubject) :=
  match notifyLoop env fuel
      { iterArr := s.observers, cur := s.observers, aliased := true } 0 [] with
  | none => none
  | some (log, cur) =>
      some (log.map (fun o => (o, e, c)), { observers := cur })

/-- The console line `User.update` prints:
`[User] Event: <event>, To: <name>, Content: <content>`. -/
def User.update (name event content : String) : String :=
  "[User] Event: " ++ event ++ ", To: " ++ name ++ ", Content: " ++ content

/-- Environment of the C1 counterexample: listener 1 subscribes listener 2
from inside its `update`; every other listener does nothing. -/
def envSubDuring : Nat → List Op :=
  fun n => if n = 1 then [Op.sub 2] else []

/-- Environment for the C1 witness: listener 1 unsubscribes listener 2 from
inside its `update`. -/
def envUnsubDuring : Nat → List Op :=
  fun n => if n = 1 then [Op.unsub 2] else []

lemma recordGet_set_self (m : RegMap) (k : String) (v : Animal) :
    recordGet (recordSet m k v) k = some v := by
  induction m with
  | nil => simp [recordSet, recordGet]
  | cons p rest ih =>
    by_cases hp : p.1 = k
    · simp [recordSet, recordGet, hp]
    · simp only [recordSet, recordGet, if_neg hp]
      by_cases hp2 : p.1 = k
      · exact absurd hp2 hp
      · simp [recordGet, hp2, ih]

lemma recordGet_set_other (m : RegMap) (k k2 : String) (v : Animal)
    (h : k2 ≠ k) : recordGet (recordSet m k v) k2 = recordGet m k2 := by
  induction m with
  | nil =>
    simp only [recordSet, recordGet]
    rw [if_neg (fun hh : k = k2 => h hh.symm)]
  | cons p rest ih =>
    by_cases hp : p.1 = k
    · simp only [recordSet, if_pos hp, recordGet]
      rw [if_neg (fun hh : k = k2 => h hh.symm), if_neg (hp ▸ fun hh : p.1 = k2 => h (hp ▸ hh).symm)]
    · simp only [recordSet, if_neg hp, recordGet, ih]

def optOr (a b : Option Animal) : Option Animal :=
  match a with
  | some x => some x
  | none => b

lemma find?_append_some {l1 l2 : List Animal} {p : Animal → Bool} {x : Animal}
    (h : l1.find? p = some x) : (l1 ++ l2).find? p = some x := by
  induction l1 with
  | nil => simp [List.find?] at h
  | cons a rest ih =>
    by_cases ha : p a
    · simp_all [List.find?_cons_of_pos]
    · rw [List.find?_cons_of_neg _ (by simpa using ha)] at h
      rw [List.cons_append, List.find?_cons_of_neg _ (by simpa using ha)]
      exact ih h

lemma find?_append_none {l1 l2 : List Animal} {p : Animal → Bool}
    (h : l1.find? p = none) : (l1 ++ l2).find? p = l2.find? p := by
  induction l1 with
  | nil => simp
  | cons a rest ih =>
    by_cases ha : p a
    · rw [List.find?_cons_of_pos _ (by simpa using ha)] at h
      exact absurd h (by simp)
    · rw [List.find?_cons_of_neg _ (by simpa using ha)] at h
      rw [List.cons_append, List.find?_cons_of_neg _ (by simpa using ha)]
      exact ih h

lemma registryFold_get (animals : List Animal) (m : RegMap) (k : String) :
    recordGet (animals.foldl (fun m2 a => recordSet m2 a.key a) m) k
      = optOr (animals.reverse.find? (fun a => a.key = k)) (recordGet m k) := by
  induction animals generalizing m with
  | nil => simp [optOr]
  | cons a rest ih =>
    rw [List.foldl_cons, ih, List.reverse_cons]
    cases hfind : rest.reverse.find? (fun a2 => a2.key = k) with
    | some x => rw [find?_append_some hfind]; simp [optOr]
    | none =>
      rw [find?_append_none hfind]
      by_cases ha : a.key = k
      · subst ha
        simp [optOr, List.find?, recordGet_set_self]
      · rw [recordGet_set_other _ _ _ _ (fun hh : k = a.key => ha hh.symm)]
        simp [optOr, List.find?, ha]

lemma optOr_none (a : Option Animal) : optOr a none = a := by
  cases a <;> rfl

lemma recordGet_unregister_self (m : RegMap) (k : String) :
    recordGet (unregister m k) k = none := by
  induction m with
  | nil => rfl
  | cons p rest ih =>
    by_cases hp : p.1 = k
    · simpa [unregister, List.filter_cons, hp] using ih
    · simpa [unregister, List.filter_cons, hp, recordGet] using ih

lemma recordGet_unregister_other (m : RegMap) (k k2 : String) (h : k2 ≠ k) :
    recordGet (unregister m k) k2 = recordGet m k2 := by
  induction m with
  | nil => rfl
  | cons p rest ih =>
    by_cases hp : p.1 = k
    · have hp2 : ¬ p.1 = k2 := fun hh => h (hh.symm.trans hp)
      rw [show unregister (p :: rest) k = unregister rest k from by
            simp [unregister, List.filter_cons, hp],
          ih]
      simp [recordGet, hp2]
    · rw [show unregister (p :: rest) k = p :: unregister rest k from by
            simp [unregister, List.filter_cons, hp]]
      by_cases hp2 : p.1 = k2
      · simp [recordGet, hp2]
      · simp [recordGet, hp2, ih]

lemma unregister_absent (m : RegMap) (k : String)
    (h : recordGet m k = none) : unregister m k = m := by
  induction m with
  | nil => rfl
  | cons p rest ih =>
    by_cases hp : p.1 = k
    · simp [recordGet, hp] at h
    · simp only [recordGet, if_neg hp] at h
      simp [unregister, List.filter_cons, hp] at ih ⊢
      exact ih h

/-- Claim C3: invoking a key that is absent from the mapping logs the
diagnostic "handler not found!", returns normally (no failure raised), and
invokes no handler, so the console output is exactly the diagnostic line and
no handler side effect occurs. -/
theorem C3_handler_not_found (m : RegMap) (k : String)
    (h : recordGet m k = none) :
    Registry.speak m k = (["handler not found!"], none) := by
  simp [Registry.speak, h]

/-- Witness for C3 at the concrete registry of the source usage script:
"bird" was never registered. -/
theorem C3_handler_not_found_witness :
    recordGet (registryInit [Dog, Cat]) "bird" = none ∧
    Registry.speak (registryInit [Dog, Cat]) "bird"
      = (["handler not found!"], none) :=
  ⟨by decide, C3_handler_not_found _ _ (by decide)⟩

/-- Claim C5: with two handlers registered under distinct keys, invoking
either key dispatches exactly to the handler registered under that key (its
output and failure are exactly that handler's); concretely, with `Dog` and
`Cat` registered, invoking "cat" records exactly "meo meo". -/
theorem C5_distinct_key_dispatch (h1 h2 : Animal) (hk : h1.key ≠ h2.key) :
    Registry.speak (registryInit [h1, h2]) h1.key = h1.speak ∧
    Registry.speak (registryInit [h1, h2]) h2.key = h2.speak ∧
    Registry.speak (registryInit [Dog, Cat]) "cat" = (["meo meo"], none) := by
  refine ⟨?_, ?_, by decide⟩
  · simp [registryInit, Registry.speak, recordSet, recordGet, hk]
  · simp [registryInit, Registry.speak, recordSet, recordGet, hk]

/-- Witness for C5 at the concrete `Dog`/`Cat` registry of the source. -/
theorem C5_distinct_key_dispatch_witness :
    Registry.speak (registryInit [Dog, Cat]) "dog" = (["gau gau"], none) ∧
    Registry.speak (registryInit [Dog, Cat]) "cat" = (["meo meo"], none) := by
  have h := C5_distinct_key_dispatch Dog Cat (by decide)
  exact ⟨h.1, h.2.2⟩

/-- A second handler that claims the key "dog", used to exhibit silent
overwriting in the constructor. -/
def Dog2 : Animal := { key := "dog", speak := (["woof woof"], none) }

/-- Claim C6: the constructor registers every handler unconditionally with no
duplicate-key check — the mapping finally associated with a key is the LAST
handler in the argument list bearing that key (the later one silently
overwrites the earlier), and a subsequent invoke on that key dispatches to
the later handler. -/
theorem C6_last_registration_wins (animals : List Animal) (k : String) :
    recordGet (registryInit animals) k
      = animals.reverse.find? (fun a => a.key = k) ∧
    recordGet (registryInit [Dog, Dog2]) "dog" = some Dog2 ∧
    Registry.speak (registryInit [Dog, Dog2]) "dog" = (["woof woof"], none) := by
  refine ⟨?_, by decide, by decide⟩
  rw [registryInit, registryFold_get]
  simp [recordGet, optOr_none]

/-- Claim C8: when key `k` is mapped to handler `h`, `speak(k)` forwards the
call to that handler (the source call takes no arguments, so the argument
list is trivially forwarded unchanged) and the handler's result — its console
output together with its raised failure, if any — is propagated unchanged to
the caller; the registry adds no output or failure of its own. -/
theorem C8_handler_propagation (m : RegMap) (k : String) (h : Animal)
    (hk : recordGet m k = some h) :
    Registry.speak m k = h.speak := by
  simp [Registry.speak, hk]

/-- A handler whose invocation logs a line and then raises, used to witness
failure propagation through the registry. -/
def Bomb : Animal := { key := "bomb", speak := (["before failure"], some "boom") }

/-- Witness for C8: a normally returning handler and a raising handler are
both propagated unchanged. -/
theorem C8_handler_propagation_witness :
    Registry.speak (registryInit [Dog, Bomb]) "bomb"
      = (["before failure"], some "boom") ∧
    Registry.speak (registryInit [Dog, Cat]) "dog" = (["gau gau"], none) :=
  ⟨C8_handler_propagation _ _ Bomb (by decide),
   C8_handler_propagation _ _ Dog (by decide)⟩

/-- Claim C9 (the `unregister` operation is modelled from the spec, the
source class having only the constructor and `speak`): `unregister(key)`
removes the mapping for that key, leaves every other key's mapping
unchanged, is a no-op (not an error) when the key is absent — hence
unregistering twice succeeds and is idempotent — and a subsequent invoke of
the removed key yields the handler-not-found outcome. -/
theorem C9_unregister_removal (m : RegMap) (k k2 : String) :
    recordGet (unregister m k) k = none ∧
    (k2 ≠ k → recordGet (unregister m k) k2 = recordGet m k2) ∧
    (recordGet m k = none → unregister m k = m) ∧
    unregister (unregister m k) k = unregister m k ∧
    Registry.speak (unregister m k) k = (["handler not found!"], none) := by
  refine ⟨recordGet_unregister_self m k,
    fun h => recordGet_unregister_other m k k2 h,
    fun h => unregister_absent m k h,
    unregister_absent _ _ (recordGet_unregister_self m k),
    ?_⟩
  simp [Registry.speak, recordGet_unregister_self]

/-- Witness for C9 at the concrete `Dog`/`Cat` registry: unregistering "dog"
removes it, preserves "cat", and unregistering the absent "bird" twice is a
no-op both times. -/
theorem C9_unregister_removal_witness :
    recordGet (unregister (registryInit [Dog, Cat]) "dog") "dog" = none ∧
    recordGet (unregister (registryInit [Dog, Cat]) "dog") "cat"
      = recordGet (registryInit [Dog, Cat]) "cat" ∧
    unregister (unregister (registryInit [Dog, Cat]) "bird") "bird"
      = unregister (registryInit [Dog, Cat]) "bird" :=
  ⟨(C9_unregister_removal (registryInit [Dog, Cat]) "dog" "cat").1,
   (C9_unregister_removal (registryInit [Dog, Cat]) "dog" "cat").2.1 (by decide),
   (C9_unregister_removal (registryInit [Dog, Cat]) "bird" "x").2.2.2.1⟩

lemma log_append_step (l log : List Nat) (pos : Nat) (h : pos < l.length) :
    log ++ [l.get ⟨pos, h⟩] ++ l.drop (pos + 1) = log ++ l.drop pos := by
  rw [List.append_assoc, List.singleton_append, List.get_eq_getElem,
      ← List.drop_eq_getElem_cons h]

lemma notifyLoop_pure (env : Nat → List Op) (hp : ∀ o, env o = []) :
    ∀ (fuel pos : Nat) (st : BCState) (log : List Nat),
      st.iterArr.length - pos + 1 ≤ fuel →
      notifyLoop env fuel st pos log
        = some (log ++ st.iterArr.drop pos, st.cur) := by
  intro fuel
  induction fuel with
  | zero => intro pos st log hf; omega
  | succ fuel ih =>
    intro pos st log hf
    by_cases h : pos < st.iterArr.length
    · rw [notifyLoop, dif_pos h, hp, List.foldl_nil,
          ih (pos + 1) st (log ++ [st.iterArr.get ⟨pos, h⟩]) (by omega),
          log_append_step]
    · rw [notifyLoop, dif_neg h,
          List.drop_eq_nil_of_le (by omega : st.iterArr.length ≤ pos),
          List.append_nil]

lemma applyOp_unsub_iterArr (st : BCState) (op : Op) (h : op.isUnsub = true) :
    (applyOp st op).iterArr = st.iterArr := by
  cases op with
  | sub o => simp [Op.isUnsub] at h
  | unsub o => rfl

lemma applyOps_unsub_iterArr (ops : List Op) (st : BCState)
    (h : ∀ op ∈ ops, op.isUnsub = true) :
    (ops.foldl applyOp st).iterArr = st.iterArr := by
  induction ops generalizing st with
  | nil => rfl
  | cons op rest ih =>
    rw [List.foldl_cons,
        ih _ (fun o ho => h o (List.mem_cons_of_mem _ ho)),
        applyOp_unsub_iterArr st op (h op (List.mem_cons_self _ _))]

lemma notifyLoop_unsub (env : Nat → List Op)
    (hu : ∀ o op, op ∈ env o → op.isUnsub = true) :
    ∀ (fuel pos : Nat) (st : BCState) (log : List Nat),
      st.iterArr.length - pos + 1 ≤ fuel →
      ∃ cur, notifyLoop env fuel st pos log
        = some (log ++ st.iterArr.drop pos, cur) := by
  intro fuel
  induction fuel with
  | zero => intro pos st log hf; omega
  | succ fuel ih =>
    intro pos st log hf
    by_cases h : pos < st.iterArr.length
    · have hiter :
          ((env (st.iterArr.get ⟨pos, h⟩)).foldl applyOp st).iterArr
            = st.iterArr :=
        applyOps_unsub_iterArr _ _ (fun op hop => hu _ op hop)
      obtain ⟨cur, hcur⟩ := ih (pos + 1)
        ((env (st.iterArr.get ⟨pos, h⟩)).foldl applyOp st)
        (log ++ [st.iterArr.get ⟨pos, h⟩]) (by rw [hiter]; omega)
      refine ⟨cur, ?_⟩
      rw [notifyLoop, dif_pos h, hcur, hiter, log_append_step]
    · refine ⟨st.cur, ?_⟩
      rw [notifyLoop, dif_neg h,
          List.drop_eq_nil_of_le (by omega : st.iterArr.length ≤ pos),
          List.append_nil]

lemma applyOp_cur_nodup (st : BCState) (op : Op) (h : st.cur.Nodup) :
    (applyOp st op).cur.Nodup := by
  cases op with
  | sub o =>
    by_cases ho : o ∈ st.cur
    · simpa [applyOp, ho] using h
    · simp only [applyOp, if_neg ho]
      rw [List.nodup_append]
      exact ⟨h, List.nodup_singleton o, by simp [ho]⟩
  | unsub o => exact h.filter _

lemma applyOps_cur_nodup (ops : List Op) (st : BCState) (h : st.cur.Nodup) :
    (ops.foldl applyOp st).cur.Nodup := by
  induction ops generalizing st with
  | nil => exact h
  | cons op rest ih => exact ih _ (applyOp_cur_nodup st op h)

lemma notifyLoop_cur_nodup (env : Nat → List Op) :
    ∀ (fuel pos : Nat) (st : BCState) (log l cur : List Nat),
      st.cur.Nodup → notifyLoop env fuel st pos log = some (l, cur) →
      cur.Nodup := by
  intro fuel
  induction fuel with
  | zero => intro pos st log l cur hn h; simp [notifyLoop] at h
  | succ fuel ih =>
    intro pos st log l cur hn h
    rw [notifyLoop] at h
    by_cases hpos : pos < st.iterArr.length
    · rw [dif_pos hpos] at h
      exact ih _ _ _ _ _ (applyOps_cur_nodup _ _ hn) h
    · rw [dif_neg hpos] at h
      simp only [Option.some.injEq, Prod.mk.injEq] at h
      rw [← h.2]
      exact hn

lemma notifyM_pure (env : Nat → List Op) (hp : ∀ o, env o = [])
    (fuel : Nat) (e c : String) (s : NotifierSubject)
    (hf : s.observers.length + 1 ≤ fuel) :
    notifyM env fuel e c s
      = some (s.observers.map (fun o => (o, e, c)), s) := by
  unfold notifyM
  rw [notifyLoop_pure env hp fuel 0
      { iterArr := s.observers, cur := s.observers, aliased := true } []
      (by show s.observers.length - 0 + 1 ≤ fuel; omega)]
  simp

lemma notifyM_nodup (env : Nat → List Op) (fuel : Nat) (e c : String)
    (s : NotifierSubject) (log : List (Nat × String × String))
    (s2 : NotifierSubject) (hn : s.observers.Nodup)
    (h : notifyM env fuel e c s = some (log, s2)) : s2.observers.Nodup := by
  unfold notifyM at h
  cases hloop : notifyLoop env fuel
      { iterArr := s.observers, cur := s.observers, aliased := true } 0 [] with
  | none => rw [hloop] at h; simp at h
  | some p =>
    obtain ⟨l0, cur⟩ := p
    rw [hloop] at h
    simp only [Option.some.injEq, Prod.mk.injEq] at h
    have hcur : cur.Nodup := notifyLoop_cur_nodup env fuel 0 _ [] l0 cur hn hloop
    rw [← h.2]
    simpa using hcur

lemma map_fst_triple (l : List Nat) (e c : String) :
    (l.map (fun o => (o, e, c))).map Prod.fst = l := by
  induction l with
  | nil => rfl
  | cons a rest ih => simp [ih]

lemma mem_subscribe_self (s : NotifierSubject) (o : Nat) :
    o ∈ (subscribe s o).observers := by
  unfold subscribe
  by_cases ho : o ∈ s.observers
  · rw [if_pos ho]
    exact ho
  · simp [ho]

lemma subscribe_mem_noop (s : NotifierSubject) (o : Nat)
    (h : o ∈ s.observers) : subscribe s o = s := by
  simp [subscribe, h]

lemma subscribe_twice (s : NotifierSubject) (o : Nat) :
    subscribe (subscribe s o) o = subscribe s o :=
  subscribe_mem_noop _ _ (mem_subscribe_self s o)

lemma subscribe_nodup (s : NotifierSubject) (o : Nat)
    (h : s.observers.Nodup) : (subscribe s o).observers.Nodup := by
  unfold subscribe
  by_cases ho : o ∈ s.observers
  · simpa [ho] using h
  · simp only [if_neg ho]
    rw [List.nodup_append]
    exact ⟨h, List.nodup_singleton o, by simp [ho]⟩

/-- Claim C2: for listeners subscribed in a given order and not unsubscribed,
a single broadcast invokes update once on every one of them with the event
and payload passed unchanged, in subscription order; delivery is synchronous,
which the sequential recursion of the loop models (the call at position N+1
is made only after the call at position N returned and its subject
operations were applied). The listeners perform no subject mutation, as the
concrete `User.update` of the source does not. -/
theorem C2_broadcast_in_order (s : NotifierSubject) (env : Nat → List Op)
    (e c : String) (fuel : Nat) (hp : ∀ o, env o = [])
    (hf : s.observers.length + 1 ≤ fuel) :
    notifyM env fuel e c s
      = some (s.observers.map (fun o => (o, e, c)), s) ∧
    (s.observers.Nodup → ∀ L ∈ s.observers,
      ((s.observers.map (fun o => (o, e, c))).map Prod.fst).count L = 1) := by
  refine ⟨notifyM_pure env hp fuel e c s hf, ?_⟩
  intro hn L hL
  rw [map_fst_triple]
  exact List.count_eq_one_of_mem hn hL

/-- Witness for C2: two listeners subscribed in order 1, 2 receive one
delivery each, in that order, with the payload unchanged. -/
theorem C2_broadcast_in_order_witness :
    notifyM (fun _ => []) 3 "new noti" "Hello" { observers := [1, 2] }
      = some ([(1, "new noti", "Hello"), (2, "new noti", "Hello")],
          { observers := [1, 2] }) := by
  have h := C2_broadcast_in_order { observers := [1, 2] } (fun _ => [])
    "new noti" "Hello" 3 (fun _ => rfl) (by decide)
  exact h.1

/-- Claim C4: a listener appears at most once in the subscriber sequence and
every operation preserves this: subscribe and unsubscribe preserve
distinctness, the state left by a completed broadcast is distinct, a
subscribe of an already present listener is a no-op (so subscribing twice
equals subscribing once), and after subscribing the same listener twice a
broadcast delivers to it exactly once. -/
theorem C4_at_most_once (s : NotifierSubject) (o L : Nat)
    (env : Nat → List Op) (e c : String) (fuel : Nat)
    (hn : s.observers.Nodup) :
    (subscribe s o).observers.Nodup ∧
    (unsubscribe s o).observers.Nodup ∧
    (∀ (log : List (Nat × String × String)) (s2 : NotifierSubject),
        notifyM env fuel e c s = some (log, s2) → s2.observers.Nodup) ∧
    (L ∈ s.observers → subscribe s L = s) ∧
    subscribe (subscribe s L) L = subscribe s L ∧
    ((∀ o2, env o2 = []) → (subscribe s L).observers.length + 1 ≤ fuel →
      ∃ (log : List (Nat × String × String)) (s2 : NotifierSubject),
        notifyM env fuel e c (subscribe (subscribe s L) L) = some (log, s2) ∧
        (log.map Prod.fst).count L = 1) := by
  refine ⟨subscribe_nodup s o hn, hn.filter _,
    fun log s2 h => notifyM_nodup env fuel e c s log s2 hn h,
    fun h => subscribe_mem_noop s L h,
    subscribe_twice s L, ?_⟩
  intro hp hf
  rw [subscribe_twice]
  refine ⟨(subscribe s L).observers.map (fun o2 => (o2, e, c)), subscribe s L,
    notifyM_pure env hp fuel e c (subscribe s L) hf, ?_⟩
  rw [map_fst_triple]
  exact List.count_eq_one_of_mem (subscribe_nodup s L hn)
    (mem_subscribe_self s L)

/-- Witness for C4: subscribing listener 1 twice from the empty subject
results in one state and a broadcast delivers to it exactly once. -/
theorem C4_at_most_once_witness :
    subscribe (subscribe { observers := ([] : List Nat) } 1) 1
      = subscribe { observers := ([] : List Nat) } 1 ∧
    ∃ (log : List (Nat × String × String)) (s2 : NotifierSubject),
      notifyM (fun _ => []) 2 "e" "x"
          (subscribe (subscribe { observers := ([] : List Nat) } 1) 1)
        = some (log, s2) ∧ (log.map Prod.fst).count 1 = 1 := by
  have h := C4_at_most_once { observers := [] } 1 1 (fun _ => []) "e" "x" 2
    (by decide)
  exact ⟨h.2.2.2.2.1, h.2.2.2.2.2 (fun _ => rfl) (by decide)⟩

/-- Claim C7: unsubscribe removes every occurrence of the listener, keeps all
other listeners in their relative positions (the remaining sequence is a
subsequence of the original containing every other member), is a no-op when
the listener is absent, and a subsequent broadcast delivers nothing to the
removed listener. -/
theorem C7_unsubscribe_removes (s : NotifierSubject) (L : Nat)
    (env : Nat → List Op) (e c : String) (fuel : Nat) :
    L ∉ (unsubscribe s L).observers ∧
    (∀ x ∈ s.observers, x ≠ L → x ∈ (unsubscribe s L).observers) ∧
    List.Sublist (unsubscribe s L).observers s.observers ∧
    (L ∉ s.observers → unsubscribe s L = s) ∧
    ((∀ o2, env o2 = []) → (unsubscribe s L).observers.length + 1 ≤ fuel →
      ∃ (log : List (Nat × String × String)) (s2 : NotifierSubject),
        notifyM env fuel e c (unsubscribe s L) = some (log, s2) ∧
        ∀ p ∈ log, p.1 ≠ L) := by
  obtain ⟨obs⟩ := s
  refine ⟨by simp [unsubscribe], ?_, ?_, ?_, ?_⟩
  · intro x hx hxL
    simp only [unsubscribe, List.mem_filter]
    exact ⟨hx, by simpa using hxL⟩
  · exact List.filter_sublist obs
  · intro h
    simp only [unsubscribe, NotifierSubject.mk.injEq]
    refine List.filter_eq_self.mpr (fun a ha => ?_)
    have haL : a ≠ L := fun hh => h (hh ▸ ha)
    simpa using haL
  · intro hp hf
    refine ⟨(unsubscribe { observers := obs } L).observers.map
        (fun o2 => (o2, e, c)),
      unsubscribe { observers := obs } L,
      notifyM_pure env hp fuel e c (unsubscribe { observers := obs } L) hf,
      ?_⟩
    intro p hp2
    obtain ⟨x, hx, rfl⟩ := List.mem_map.mp hp2
    have hx2 := (List.mem_filter.mp hx).2
    simpa using hx2

/-- Witness for C7, following scenario B of the spec with Dat as listener 1
and Cuong as listener 2: unsubscribing an absent listener is a no-op, and
after unsubscribing listener 1 a broadcast delivers to nobody named 1. -/
theorem C7_unsubscribe_removes_witness :
    unsubscribe { observers := [1, 2] } 3 = { observers := [1, 2] } ∧
    (∃ (log : List (Nat × String × String)) (s2 : NotifierSubject),
      notifyM (fun _ => []) 2 "new noti" "Hello"
          (unsubscribe { observers := [1, 2] } 1) = some (log, s2) ∧
      ∀ p ∈ log, p.1 ≠ 1) := by
  have h3 := C7_unsubscribe_removes { observers := [1, 2] } 3 (fun _ => [])
    "new noti" "Hello" 2
  have h1 := C7_unsubscribe_removes { observers := [1, 2] } 1 (fun _ => [])
    "new noti" "Hello" 2
  exact ⟨h3.2.2.2.1 (by decide), h1.2.2.2.2 (fun _ => rfl) (by decide)⟩

/-- Claim C10: for a listener not currently subscribed, subscribe followed by
unsubscribe restores the subscriber sequence exactly, so any later broadcast
behaves as if the listener had never been subscribed. -/
theorem C10_subscribe_unsubscribe_roundtrip (s : NotifierSubject) (L : Nat)
    (h : L ∉ s.observers) :
    unsubscribe (subscribe s L) L = s ∧
    ∀ (env : Nat → List Op) (fuel : Nat) (e c : String),
      notifyM env fuel e c (unsubscribe (subscribe s L) L)
        = notifyM env fuel e c s := by
  obtain ⟨obs⟩ := s
  have h1 : unsubscribe (subscribe { observers := obs } L) L
      = { observers := obs } := by
    rw [show subscribe { observers := obs } L
          = { observers := obs ++ [L] } from by
        simp only [subscribe]
        rw [if_neg (by simpa using h)]]
    simp only [unsubscribe, NotifierSubject.mk.injEq, List.filter_append]
    rw [show List.filter (fun x => x ≠ L) [L] = [] from by simp,
        List.append_nil]
    refine List.filter_eq_self.mpr (fun a ha => ?_)
    have haL : a ≠ L := fun hh => h (by simpa using hh ▸ ha)
    simpa using haL
  exact ⟨h1, fun env fuel e c => by rw [h1]⟩

/-- Witness for C10: from the subject with listener 2 only, subscribing then
unsubscribing listener 1 restores the state and later broadcasts agree. -/
theorem C10_subscribe_unsubscribe_roundtrip_witness :
    unsubscribe (subscribe { observers := [2] } 1) 1 = { observers := [2] } ∧
    notifyM (fun _ => []) 2 "e" "x"
        (unsubscribe (subscribe { observers := [2] } 1) 1)
      = notifyM (fun _ => []) 2 "e" "x" { observers := [2] } := by
  have h := C10_subscribe_unsubscribe_roundtrip { observers := [2] } 1
    (by decide)
  exact ⟨h.1, h.2 (fun _ => []) 2 "e" "x"⟩

/-- Claim C1 counterexample: the recipients of a broadcast are NOT always the
set subscribed at the start of the call. Start with listener 1 alone
subscribed; its update subscribes listener 2 mid-broadcast. The push lands on
the very array the loop is iterating, so listener 2 — not subscribed when
the call started — receives the in-progress broadcast. -/
theorem C1_snapshot_counterexample :
    2 ∉ ({ observers := [1] } : NotifierSubject).observers ∧
    notifyM envSubDuring 4 "e" "x" { observers := [1] }
      = some ([(1, "e", "x"), (2, "e", "x")], { observers := [1, 2] }) :=
  ⟨by decide, rfl⟩

/-- Claim C1 as amended: a snapshot rule holds for removals only. When every
subject operation issued during the broadcast is an unsubscribe, the
recipients are exactly the listeners subscribed at the moment the call
starts, in order — removals take effect only for subsequent broadcasts. A
subscribe issued from inside an update, however, pushes onto the array being
iterated, and the newly subscribed listener does receive the in-progress
broadcast (second conjunct, the run of the counterexample input). -/
theorem C1_snapshot_for_removals :
    (∀ (env : Nat → List Op) (s : NotifierSubject) (e c : String)
        (fuel : Nat),
      (∀ o op, op ∈ env o → op.isUnsub = true) →
      s.observers.length + 1 ≤ fuel →
      ∃ s2, notifyM env fuel e c s
        = some (s.observers.map (fun o => (o, e, c)), s2)) ∧
    notifyM envSubDuring 4 "e" "x" { observers := [1] }
      = some ([(1, "e", "x"), (2, "e", "x")], { observers := [1, 2] }) := by
  constructor
  · intro env s e c fuel hu hf
    obtain ⟨cur, hcur⟩ := notifyLoop_unsub env hu fuel 0
      { iterArr := s.observers, cur := s.observers, aliased := true } []
      (by show s.observers.length - 0 + 1 ≤ fuel; omega)
    refine ⟨{ observers := cur }, ?_⟩
    unfold notifyM
    rw [hcur]
    simp
  · rfl

/-- Witness for C1 as amended: listener 1 unsubscribes listener 2
mid-broadcast, yet listener 2 still receives this broadcast — the removal
only affects later calls. -/
theorem C1_snapshot_for_removals_witness :
    ∃ s2, notifyM envUnsubDuring 3 "e" "x" { observers := [1, 2] }
      = some ([(1, "e", "x"), (2, "e", "x")], s2) := by
  have h := C1_snapshot_for_removals.1 envUnsubDuring { observers := [1, 2] }
    "e" "x" 3
    (by
      intro o op hop
      by_cases ho : o = 1
      · subst ho
        simp [envUnsubDuring] at hop
        subst hop
        rfl
      · simp [envUnsubDuring, ho] at hop)
    (by decide)
  exact h
